import Mathlib

/-!
Shallow embedding of the Spoticord core (audio bridge, playback engine,
room session, session registry) together with theorems settling the
specification claims about it.

Sources embedded:
- `spoticord_audio/src/stream.rs` (the `Stream` bounded byte buffer)
- `spoticord_player/src/info.rs` (`PlaybackInfo`)
- `spoticord_player/src/lib.rs` (`Player`: command handling, Spotify
  event handling, lyrics, the Spirc connect retry loop)
- `spoticord_session/src/lib.rs` (`Session`: reactivate, shutdown_player,
  disconnect, `Drop`)
- `spoticord_session/src/manager.rs` (`SessionManager`)
- `src/commands/music/join.rs` (the owner-uniqueness guard of the join
  command)
-/

/-! ## AudioBridge: `spoticord_audio/src/stream.rs` -/

/-- `const BUFFER_SIZE: usize = 64 * 1024` from stream.rs. -/
def BUFFER_SIZE : Nat := 64 * 1024

/-- Result of one `Stream::read` call: the bytes placed into the
destination slice (`dest`), the returned byte count, the buffer
contents after the call, and whether `condvar.notify_all()` ran. -/
structure StreamReadResult where
  dest : List Nat
  count : Nat
  buffer : List Nat
  woke : Bool
deriving DecidableEq, Repr

/-- `impl Read for Stream` (stream.rs lines 24-46).  The destination
slice is modelled by its length `destLen`; `dest` holds the bytes the
call wrote into it.  Empty buffer: fill the whole destination with
zeroes, notify all waiters, return `destLen`.  Otherwise copy
`min destLen buffer.length` bytes from the front (FIFO), drain them,
notify all waiters.  The function is total: `read` never waits. -/
def streamRead (buffer : List Nat) (destLen : Nat) : StreamReadResult :=
  if buffer.isEmpty then
    { dest := List.replicate destLen 0, count := destLen, buffer := buffer, woke := true }
  else
    let maxRead := min destLen buffer.length
    { dest := buffer.take maxRead, count := maxRead, buffer := buffer.drop maxRead, woke := true }

/-- The `while buffer.len() + buf.len() > BUFFER_SIZE` wait condition of
`impl Write for Stream` (stream.rs line 53), negated: the write may
proceed exactly when appending the chunk keeps the buffer within
`BUFFER_SIZE`. -/
def streamWriteReady (buffer chunk : List Nat) : Bool :=
  decide (buffer.length + chunk.length ≤ BUFFER_SIZE)

/-- Effect of a `Stream::write` once it is past the wait loop
(stream.rs line 57): `buffer.extend_from_slice(buf)`. -/
def streamWriteCommit (buffer chunk : List Nat) : List Nat :=
  buffer ++ chunk

/-- `Stream::flush` (stream.rs lines 63-71): `buffer.clear()`. -/
def streamFlush (buffer : List Nat) : List Nat :=
  match buffer with
  | _ => []

/-- One operation of a write/read/flush trace over the bridge. -/
inductive StreamOp where
  | write (chunk : List Nat)
  | read (destLen : Nat)
  | flush
deriving DecidableEq, Repr

/-- Trace state: the buffer contents, the total bytes accepted by
completed writes, and the total data bytes handed out by reads
(synthesized zero bytes from the empty-buffer path are not counted). -/
structure StreamTraceState where
  buffer : List Nat
  written : Nat
  readOut : Nat
deriving DecidableEq, Repr

/-- One trace step.  A `write` whose chunk does not fit yet leaves the
state unchanged: the writer is still blocked in the wait loop and the
write has not completed.  A `read` on an empty buffer synthesizes
zeroes and moves no data, so it adds nothing to `readOut`. -/
def streamStep (st : StreamTraceState) (op : StreamOp) : StreamTraceState :=
  match op with
  | .write chunk =>
      if streamWriteReady st.buffer chunk then
        { st with
            buffer := streamWriteCommit st.buffer chunk
            written := st.written + chunk.length }
      else
        st
  | .read n =>
      let r := streamRead st.buffer n
      { st with
          buffer := r.buffer
          readOut := st.readOut + if st.buffer.isEmpty then 0 else r.count }
  | .flush => { st with buffer := streamFlush st.buffer }

/-- The bridge starts out empty (`Stream::new` / `Default`). -/
def streamInit : StreamTraceState :=
  { buffer := [], written := 0, readOut := 0 }

/-- Run a whole trace of bridge operations from the initial state. -/
def streamExec (ops : List StreamOp) : StreamTraceState :=
  ops.foldl streamStep streamInit

/-- Conservation invariant of the bridge: the data bytes handed out plus
the bytes still buffered never exceed the bytes accepted by writes, and
the buffer never exceeds the capacity ceiling. -/
def StreamInv (st : StreamTraceState) : Prop :=
  st.readOut + st.buffer.length ≤ st.written ∧ st.buffer.length ≤ BUFFER_SIZE

theorem streamStep_inv (st : StreamTraceState) (op : StreamOp)
    (h : StreamInv st) : StreamInv (streamStep st op) := by
  obtain ⟨h1, h2⟩ := h
  cases op with
  | write chunk =>
      simp only [streamStep]
      by_cases hready : streamWriteReady st.buffer chunk = true
      · have hle : st.buffer.length + chunk.length ≤ BUFFER_SIZE := by
          simpa [streamWriteReady] using hready
        simp [hready, StreamInv, streamWriteCommit]
        omega
      · simp only [Bool.not_eq_true] at hready
        simp [hready, StreamInv, h1, h2]
  | read n =>
      simp only [streamStep]
      by_cases hempty : st.buffer.isEmpty = true
      · simp [streamRead, hempty, StreamInv, h1, h2]
      · simp only [Bool.not_eq_true] at hempty
        simp [streamRead, hempty, StreamInv]
        constructor
        · have : min n st.buffer.length ≤ st.buffer.length := Nat.min_le_right _ _
          omega
        · omega
  | flush =>
      simp [streamStep, streamFlush, StreamInv]
      omega

theorem streamExec_inv (ops : List StreamOp) : StreamInv (streamExec ops) := by
  have hinit : StreamInv streamInit := by
    constructor <;> simp [streamInit, BUFFER_SIZE]
  rw [streamExec]
  induction ops using List.reverseRecOn with
  | nil => simpa using hinit
  | append_singleton l op ih =>
      rw [List.foldl_append, List.foldl_cons, List.foldl_nil]
      exact streamStep_inv _ _ ih

theorem streamRead_drains (buffer : List Nat) (h : buffer.length ≤ BUFFER_SIZE) :
    (streamRead buffer BUFFER_SIZE).buffer = [] := by
  by_cases hempty : buffer.isEmpty = true
  · simp [streamRead, hempty, List.isEmpty_iff.mp hempty]
  · simp only [Bool.not_eq_true] at hempty
    simp [streamRead, hempty, Nat.min_eq_right h]

/-- C7: a `read` on an empty buffer never waits (it is a straight-line
branch of the total function `streamRead`), fills the destination with
exactly `destLen` zero bytes, reports `destLen` bytes read, leaves the
buffer empty, and broadcasts on the condition variable, waking any
blocked writer. -/
theorem read_empty_returns_silence :
    ∀ destLen : Nat,
      streamRead [] destLen =
        { dest := List.replicate destLen 0
          count := destLen
          buffer := []
          woke := true } := by
  intro destLen
  simp [streamRead]

/-- C3 (amended): over every write/read/flush trace, the total data
bytes returned by reads (synthesized zeroes excluded) never exceed the
total bytes accepted by writes; and a pending write whose chunk is at
most `BUFFER_SIZE` becomes unblocked as soon as a read drains the
buffer — after a single read of `BUFFER_SIZE` bytes the wait condition
of `Stream::write` is false for that chunk.  (A chunk strictly larger
than `BUFFER_SIZE` is excluded: its wait condition holds in every
state, see the counterexample.) -/
theorem stream_conservation_and_write_unblocks (ops : List StreamOp) (chunk : List Nat)
    (hchunk : chunk.length ≤ BUFFER_SIZE) :
    (streamExec ops).readOut ≤ (streamExec ops).written ∧
      streamWriteReady (streamStep (streamExec ops) (.read BUFFER_SIZE)).buffer chunk = true := by
  obtain ⟨h1, h2⟩ := streamExec_inv ops
  constructor
  · omega
  · have hdrain : (streamRead (streamExec ops).buffer BUFFER_SIZE).buffer = [] :=
      streamRead_drains _ h2
    simp [streamStep, hdrain, streamWriteReady, hchunk]

theorem stream_conservation_witness :
    ([0, 1, 2] : List Nat).length ≤ BUFFER_SIZE ∧
      ((streamExec [.write [5, 6], .read 2, .read 2]).readOut ≤
          (streamExec [.write [5, 6], .read 2, .read 2]).written ∧
        streamWriteReady
          (streamStep (streamExec [.write [5, 6], .read 2, .read 2]) (.read BUFFER_SIZE)).buffer
          [0, 1, 2] = true) :=
  ⟨by decide, stream_conservation_and_write_unblocks [.write [5, 6], .read 2, .read 2]
      [0, 1, 2] (by decide)⟩

theorem streamStep_write_blocked (st : StreamTraceState) (chunk : List Nat)
    (h : streamWriteReady st.buffer chunk = false) : streamStep st (.write chunk) = st := by
  simp [streamStep, h]

theorem streamStep_read_keeps_empty (st : StreamTraceState) (n : Nat) (h : st.buffer = []) :
    (streamStep st (.read n)).buffer = [] := by
  simp [streamStep, streamRead, h]

/-- C3 (counterexample): a write call with a chunk one byte larger than
the 64 KiB capacity never completes, even though the buffer has been
fully drained.  In the empty (fully drained) state the wait condition
of `Stream::write` still holds, the write moves no data, and a further
read leaves the buffer empty, so no sequence of reads can ever unblock
it. -/
theorem oversized_write_never_completes :
    streamWriteReady [] (List.replicate (BUFFER_SIZE + 1) 0) = false ∧
      streamStep streamInit (.write (List.replicate (BUFFER_SIZE + 1) 0)) = streamInit ∧
      (streamStep streamInit (.read 1024)).buffer = [] := by
  have hlen : (List.replicate (BUFFER_SIZE + 1) 0).length = BUFFER_SIZE + 1 :=
    List.length_replicate _ _
  have hready : streamWriteReady [] (List.replicate (BUFFER_SIZE + 1) 0) = false := by
    rw [streamWriteReady]
    apply decide_eq_false
    rw [hlen]
    simp only [List.length_nil]
    omega
  exact ⟨hready, streamStep_write_blocked _ _ hready, streamStep_read_keeps_empty _ _ rfl⟩

/-! ## PlaybackInfo: `spoticord_player/src/info.rs` -/

/-- `librespot::metadata::audio::UniqueFields`: the per-kind metadata of
an audio item (artists/album for a track, show name for an episode). -/
inductive UniqueFields where
  | track (artists : List Nat) (album : String)
  | episode (show_name : String)
deriving DecidableEq, Repr

/-- `librespot::metadata::audio::AudioItem`: the fields `PlaybackInfo`
reads (identity, display name, cover art, duration, unique fields). -/
structure AudioItem where
  track_id : Nat
  name : String
  covers : List String
  duration_ms : Nat
  unique_fields : UniqueFields
deriving DecidableEq, Repr

/-- `PlaybackInfo` (info.rs lines 11-18): the audio item plus the
wall-clock timestamp of the last update, the last-known position (u32
milliseconds) and the playing flag.  `get_time()` is passed in
explicitly as `now` wherever the source reads the clock. -/
structure PlaybackInfo where
  audio_item : AudioItem
  updated_at : Nat
  position : Nat
  playing : Bool
deriving DecidableEq, Repr

/-- `PlaybackInfo::new` (info.rs lines 21-29). -/
def PlaybackInfo.new (audio_item : AudioItem) (position : Nat) (playing : Bool)
    (now : Nat) : PlaybackInfo :=
  { audio_item := audio_item, updated_at := now, position := position, playing := playing }

/-- `PlaybackInfo::current_position` (info.rs lines 101-110).  The Rust
code computes `self.position + diff as u32` in u32 arithmetic with
`diff = now - updated_at` as u128; the `as u32` cast and the u32
addition are the explicit `% 2 ^ 32`. -/
def PlaybackInfo.current_position (pi : PlaybackInfo) (now : Nat) : Nat :=
  if pi.playing then (pi.position + (now - pi.updated_at) % 2 ^ 32) % 2 ^ 32
  else pi.position

/-- `PlaybackInfo::update_playback` (info.rs lines 116-120). -/
def PlaybackInfo.update_playback (pi : PlaybackInfo) (position : Nat) (playing : Bool)
    (now : Nat) : PlaybackInfo :=
  { pi with position := position, playing := playing, updated_at := now }

/-- `PlaybackInfo::update_track` (info.rs lines 122-124): replaces only
the audio item; `position`, `playing` and `updated_at` are untouched. -/
def PlaybackInfo.update_track (pi : PlaybackInfo) (audio_item : AudioItem) : PlaybackInfo :=
  { pi with audio_item := audio_item }

/-- C8: when `playing` is true, `current_position` equals
`position + (now - last_update)` (exact under the no-overflow bounds of
the u32 arithmetic), and two queries `d` ms apart with no intervening
update differ by exactly `d`; when `playing` is false it returns
`position` unchanged. -/
theorem playback_position_formula (pi : PlaybackInfo) (t1 d : Nat)
    (hle : pi.updated_at ≤ t1)
    (hbound : pi.position + (t1 - pi.updated_at) + d < 2 ^ 32) :
    (pi.playing = true →
        pi.current_position t1 = pi.position + (t1 - pi.updated_at) ∧
        pi.current_position (t1 + d) = pi.current_position t1 + d) ∧
    (pi.playing = false → pi.current_position t1 = pi.position) := by
  constructor
  · intro hplay
    have h1 : (t1 - pi.updated_at) % 2 ^ 32 = t1 - pi.updated_at :=
      Nat.mod_eq_of_lt (by omega)
    have h2 : (t1 + d - pi.updated_at) % 2 ^ 32 = t1 + d - pi.updated_at :=
      Nat.mod_eq_of_lt (by omega)
    have h3 : t1 + d - pi.updated_at = t1 - pi.updated_at + d := by omega
    have hmain : pi.current_position t1 = pi.position + (t1 - pi.updated_at) := by
      simp only [PlaybackInfo.current_position, hplay, if_true, h1]
      exact Nat.mod_eq_of_lt (by omega)
    refine ⟨hmain, ?_⟩
    simp only [PlaybackInfo.current_position, hplay, if_true, h2, h3] at hmain ⊢
    rw [Nat.mod_eq_of_lt (by omega), hmain]
    omega
  · intro hplay
    simp [PlaybackInfo.current_position, hplay]

def sampleItem : AudioItem :=
  { track_id := 1
    name := "Song"
    covers := ["cover"]
    duration_ms := 180000
    unique_fields := .track [7] "Album" }

def samplePlaying : PlaybackInfo :=
  { audio_item := sampleItem, updated_at := 1000, position := 30000, playing := true }

theorem playback_position_formula_witness :
    (samplePlaying.playing = true →
        samplePlaying.current_position 4000 =
            samplePlaying.position + (4000 - samplePlaying.updated_at) ∧
        samplePlaying.current_position (4000 + 250) =
            samplePlaying.current_position 4000 + 250) ∧
    (samplePlaying.playing = false →
        samplePlaying.current_position 4000 = samplePlaying.position) :=
  playback_position_formula samplePlaying 4000 250 (by decide) (by decide)

/-! ## PlaybackEngine: `spoticord_player/src/lib.rs` -/

/-- The decode-engine events of
`librespot::playback::player::PlayerEvent` that
`Player::handle_spotify_event` matches on; every other variant falls
into `other` (the `_ => {}` arm). -/
inductive SpotifyEvent where
  | positionCorrection (position_ms : Nat)
  | seeked (position_ms : Nat)
  | playing (position_ms : Nat)
  | paused (position_ms : Nat)
  | stopped
  | sessionDisconnected
  | trackChanged (audio_item : AudioItem)
  | other
deriving DecidableEq, Repr

/-- `spoticord_player::PlayerEvent`, the high-level events sent to the
session (lib.rs lines 38-44). -/
inductive PlayerEvent where
  | pause
  | play
  | stopped
  | trackChanged (info : PlaybackInfo)
deriving DecidableEq, Repr

/-- Calls made on the songbird track handle. -/
inductive TrackAction where
  | pauseTrack
  | playTrack
deriving DecidableEq, Repr

/-- Result of `Player::handle_spotify_event`: the new `playback_info`,
the high-level events sent on the event channel (in order), and the
calls made on the songbird track handle. -/
structure SpotifyEventResult where
  playback_info : Option PlaybackInfo
  events : List PlayerEvent
  trackActions : List TrackAction
deriving DecidableEq, Repr

/-- `Player::handle_spotify_event` (lib.rs lines 197-244), with the
mutable `self.playback_info` passed in as `pi` and `get_time()` as
`now`. -/
def handle_spotify_event (pi : Option PlaybackInfo) (event : SpotifyEvent)
    (now : Nat) : SpotifyEventResult :=
  match event with
  | .positionCorrection position_ms =>
      { playback_info := pi.map (fun i => i.update_playback position_ms true now)
        events := []
        trackActions := [] }
  | .seeked position_ms =>
      { playback_info := pi.map (fun i => i.update_playback position_ms true now)
        events := []
        trackActions := [] }
  | .playing position_ms =>
      { playback_info := pi.map (fun i => i.update_playback position_ms true now)
        events := [.play]
        trackActions := [] }
  | .paused position_ms =>
      { playback_info := pi.map (fun i => i.update_playback position_ms false now)
        events := [.pause]
        trackActions := [] }
  | .stopped =>
      { playback_info := none, events := [.pause], trackActions := [.pauseTrack] }
  | .sessionDisconnected =>
      { playback_info := none, events := [.pause], trackActions := [.pauseTrack] }
  | .trackChanged audio_item =>
      match pi with
      | some i =>
          { playback_info := some (i.update_track audio_item)
            events := [.trackChanged (i.update_track audio_item)]
            trackActions := [] }
      | none =>
          { playback_info := some (PlaybackInfo.new audio_item 0 false now)
            events := [.trackChanged (PlaybackInfo.new audio_item 0 false now)]
            trackActions := [] }
  | .other => { playback_info := pi, events := [], trackActions := [] }

/-- `PlayerCommand` (lib.rs lines 25-36); the reply senders of the two
query commands are modelled by the `CommandReply` output below. -/
inductive PlayerCommand where
  | nextTrack
  | previousTrack
  | pause
  | play
  | getPlaybackInfo
  | getLyrics
  | shutdown
deriving DecidableEq, Repr

/-- The native Spirc transport primitives a command may forward to. -/
inductive SpircCall where
  | next
  | prev
  | pause
  | play
deriving DecidableEq, Repr

/-- The part of `Player` state that commands can observe or mutate:
`playback_info`, and whether the command mailbox is still open
(`Shutdown` performs `self.commands.close()`). -/
structure PlayerState where
  playback_info : Option PlaybackInfo
  commandsOpen : Bool
deriving DecidableEq, Repr

/-- The lyrics payload is opaque to the engine; model it as a string. -/
inductive LyricsError where
  | statusCode (code : Nat)
  | other
deriving DecidableEq, Repr

/-- Reply sent back on a command's oneshot channel, if any. -/
inductive CommandReply where
  | noReply
  | playbackInfo (info : Option PlaybackInfo)
  | lyrics (l : Option String)
deriving DecidableEq, Repr

/-- `Player::get_lyrics` (lib.rs lines 257-278), with the outcome of
`Lyrics::get` passed in as `fetch`: nothing playing replies `None`;
a successful fetch replies the lyrics; every error — 404 or not —
replies `None` (the 404 case merely skips the error log). -/
def get_lyrics_reply (pi : Option PlaybackInfo)
    (fetch : Except LyricsError String) : Option String :=
  match pi with
  | none => none
  | some _ =>
      match fetch with
      | .ok lyrics => some lyrics
      | .error _ => none

/-- `Player::handle_command` (lib.rs lines 183-195): the new state, the
Spirc calls made, and the reply sent.  `fetch` is the outcome
`Lyrics::get` would produce for the `GetLyrics` command. -/
def handle_command (st : PlayerState) (command : PlayerCommand)
    (fetch : Except LyricsError String) : PlayerState × List SpircCall × CommandReply :=
  match command with
  | .nextTrack => (st, [.next], .noReply)
  | .previousTrack => (st, [.prev], .noReply)
  | .pause => (st, [.pause], .noReply)
  | .play => (st, [.play], .noReply)
  | .getPlaybackInfo => (st, [], .playbackInfo st.playback_info)
  | .getLyrics => (st, [], .lyrics (get_lyrics_reply st.playback_info fetch))
  | .shutdown => ({ st with commandsOpen := false }, [], .noReply)

/-- The two ways `PlayerHandle::get_lyrics` (lib.rs lines 323-328) can
fail: the `send` on the command mailbox errors (mailbox closed), or the
oneshot reply channel errors (engine gone before replying). -/
inductive ChannelError where
  | sendClosed
  | recvClosed
deriving DecidableEq, Repr

/-- `PlayerHandle::get_lyrics` (lib.rs lines 323-328): `send(...).await?`
fails iff the mailbox is closed, `rx.await?` fails iff the engine never
replies; otherwise the engine's `get_lyrics` reply is returned as
`Ok`. -/
def player_handle_get_lyrics (mailboxOpen replyDelivered : Bool)
    (pi : Option PlaybackInfo) (fetch : Except LyricsError String) :
    Except ChannelError (Option String) :=
  if mailboxOpen = false then .error .sendClosed
  else if replyDelivered = false then .error .recvClosed
  else .ok (get_lyrics_reply pi fetch)

/-- Boolean error test on `Except` (to state "returns an error"). -/
def exceptIsError : Except ε α → Bool
  | .error _ => true
  | .ok _ => false

/-- The Spirc handle produced by a successful connect. -/
structure Spirc where
  id : Nat
deriving DecidableEq, Repr

/-- Errors of `Spirc::new` (the connect handshake). -/
inductive SpircError where
  | transient (code : Nat)
  | authFailed
deriving DecidableEq, Repr

/-- The `Spirc::new` retry loop of `Player::create` (lib.rs lines
105-133).  `attempt i` is the outcome of the i-th `Spirc::new` call.
The Rust loop keeps a `tries` counter starting at 0, increments it on
each failure and gives up when `tries > 3`, returning that failure; so
`fuel = 3` further attempts remain after the first.  There is no sleep
or backoff between attempts: a failed attempt `continue`s
immediately. -/
def spirc_connect_loop (attempt : Nat → Except SpircError Spirc) :
    Nat → Nat → Except SpircError Spirc
  | idx, fuel =>
      match attempt idx with
      | .ok spirc => .ok spirc
      | .error why =>
          match fuel with
          | 0 => .error why
          | f + 1 => spirc_connect_loop attempt (idx + 1) f

/-- `Player::create`'s connect phase: first attempt plus up to three
retries.  An `.ok` means the engine is constructed and spawned; an
`.error` means `Player::create` returns the error and no engine is
created. -/
def spirc_connect (attempt : Nat → Except SpircError Spirc) : Except SpircError Spirc :=
  spirc_connect_loop attempt 0 3

theorem spirc_connect_loop_error_step (attempt : Nat → Except SpircError Spirc)
    (idx f : Nat) (e : SpircError) (h : attempt idx = .error e) :
    spirc_connect_loop attempt idx (f + 1) = spirc_connect_loop attempt (idx + 1) f := by
  rw [spirc_connect_loop, h]

theorem spirc_connect_loop_error_last (attempt : Nat → Except SpircError Spirc)
    (idx : Nat) (e : SpircError) (h : attempt idx = .error e) :
    spirc_connect_loop attempt idx 0 = .error e := by
  rw [spirc_connect_loop, h]

theorem spirc_connect_loop_congr (fuel : Nat) :
    ∀ (f g : Nat → Except SpircError Spirc) (idx : Nat),
      (∀ i, idx ≤ i → i ≤ idx + fuel → f i = g i) →
      spirc_connect_loop f idx fuel = spirc_connect_loop g idx fuel := by
  induction fuel with
  | zero =>
      intro f g idx h
      simp only [spirc_connect_loop, h idx (Nat.le_refl _) (Nat.le_add_right _ _)]
  | succ n ih =>
      intro f g idx h
      rw [spirc_connect_loop]
      conv_rhs => rw [spirc_connect_loop]
      rw [h idx (Nat.le_refl _) (Nat.le_add_right _ _)]
      cases hg : g idx with
      | ok s => rfl
      | error e =>
          exact ih f g (idx + 1) (fun i h1 h2 => h i (by omega) (by omega))

/-- C5 (amended): the connect handshake of `PlaybackEngine`
construction is attempted up to 4 times in total (the initial attempt
plus 3 retries, with no backoff between attempts); the loop never looks
beyond the first 4 attempts, and if all 4 fail the last error is
surfaced to the caller as-is and the engine is not created. -/
theorem spirc_connect_bounded_retries (attempt : Nat → Except SpircError Spirc)
    (e0 e1 e2 e3 : SpircError)
    (h0 : attempt 0 = .error e0) (h1 : attempt 1 = .error e1)
    (h2 : attempt 2 = .error e2) (h3 : attempt 3 = .error e3) :
    spirc_connect attempt = .error e3 ∧
      ∀ g : Nat → Except SpircError Spirc,
        (∀ i, i ≤ 3 → attempt i = g i) → spirc_connect attempt = spirc_connect g := by
  constructor
  · rw [spirc_connect, spirc_connect_loop_error_step attempt 0 2 e0 h0,
      spirc_connect_loop_error_step attempt 1 1 e1 h1,
      spirc_connect_loop_error_step attempt 2 0 e2 h2,
      spirc_connect_loop_error_last attempt 3 e3 h3]
  · intro g hg
    exact spirc_connect_loop_congr 3 attempt g 0 (fun i _ h2 => hg i (by omega))

theorem spirc_connect_bounded_retries_witness :
    spirc_connect (fun _ => .error .authFailed) = .error .authFailed ∧
      ∀ g : Nat → Except SpircError Spirc,
        (∀ i, i ≤ 3 → (fun _ => Except.error SpircError.authFailed) i = g i) →
          spirc_connect (fun _ => .error .authFailed) = spirc_connect g :=
  spirc_connect_bounded_retries (fun _ => .error .authFailed)
    .authFailed .authFailed .authFailed .authFailed rfl rfl rfl rfl

/-- A connect attempt sequence whose first three attempts fail and
whose fourth succeeds. -/
def attemptFourthSucceeds : Nat → Except SpircError Spirc :=
  fun i => if i = 3 then .ok { id := 42 } else .error (.transient 7)

/-- C5 (counterexample): with the first three connect attempts failing,
the engine is still created — the loop makes a fourth attempt, so the
claimed bound of 3 attempts (after which the error would be surfaced
and the engine not created) does not hold of the code. -/
theorem spirc_connect_makes_fourth_attempt :
    spirc_connect attemptFourthSucceeds = .ok { id := 42 } := by
  rfl

/-- C4 (amended): on a `TrackChanged` decode event with an existing
`PlaybackInfo`, the handler replaces only the track identity/metadata
(`audio_item`) — position, playing flag and update timestamp are
preserved from the prior snapshot (the decode event carries no
position) — and exactly one high-level `TrackChanged` event is emitted,
carrying the updated snapshot; with no existing `PlaybackInfo` a fresh
snapshot at position 0, not playing, is created and emitted once. -/
theorem track_changed_updates_in_place :
    ∀ (i : PlaybackInfo) (audio_item : AudioItem) (now : Nat),
      handle_spotify_event (some i) (.trackChanged audio_item) now =
          { playback_info := some (i.update_track audio_item)
            events := [.trackChanged (i.update_track audio_item)]
            trackActions := [] } ∧
        (i.update_track audio_item).audio_item = audio_item ∧
        (i.update_track audio_item).position = i.position ∧
        (i.update_track audio_item).playing = i.playing ∧
        (i.update_track audio_item).updated_at = i.updated_at ∧
        handle_spotify_event none (.trackChanged audio_item) now =
          { playback_info := some (PlaybackInfo.new audio_item 0 false now)
            events := [.trackChanged (PlaybackInfo.new audio_item 0 false now)]
            trackActions := [] } := by
  intro i audio_item now
  refine ⟨rfl, rfl, rfl, rfl, rfl, rfl⟩

def trackT2 : AudioItem :=
  { track_id := 2
    name := "Next Song"
    covers := ["cover2"]
    duration_ms := 200000
    unique_fields := .track [8] "Album 2" }

/-- C4 (counterexample): with track T1 playing at position 30000 ms
(`samplePlaying`), a `TrackChanged` decode event to T2 yields a
snapshot whose position is still 30000 — the position is preserved, not
reset: the decode event supplies no position and the handler leaves the
field untouched. -/
theorem track_changed_position_not_reset :
    (handle_spotify_event (some samplePlaying) (.trackChanged trackT2) 31000).playback_info =
        some { samplePlaying with audio_item := trackT2 } ∧
      ((handle_spotify_event (some samplePlaying)
            (.trackChanged trackT2) 31000).playback_info.map (fun i => i.position)) =
        some 30000 ∧
      (30000 : Nat) ≠ 0 := by
  refine ⟨rfl, rfl, by decide⟩

/-- C9: each of the four transport commands only forwards to the
corresponding native Spirc primitive — the engine state (including
`playback_info`) is returned unchanged and no reply is sent — and more
generally no command whatsoever mutates `playback_info`; only decode
event handling does. -/
theorem transport_commands_forward_only :
    ∀ (st : PlayerState) (fetch : Except LyricsError String),
      handle_command st .nextTrack fetch = (st, [.next], .noReply) ∧
        handle_command st .previousTrack fetch = (st, [.prev], .noReply) ∧
        handle_command st .pause fetch = (st, [SpircCall.pause], .noReply) ∧
        handle_command st .play fetch = (st, [SpircCall.play], .noReply) ∧
        ∀ command : PlayerCommand,
          (handle_command st command fetch).1.playback_info = st.playback_info := by
  intro st fetch
  refine ⟨rfl, rfl, rfl, rfl, ?_⟩
  intro command
  cases command <;> rfl

/-- C10: the engine's `GetLyrics` handler replies `None` on every fetch
error — whatever the error is, not only HTTP 404 — and
`PlayerHandle::get_lyrics` returns an error exactly when the command
mailbox or the reply channel is closed. -/
theorem lyrics_errors_reply_none :
    ∀ (pi : Option PlaybackInfo) (e : LyricsError) (mailboxOpen replyDelivered : Bool)
      (fetch : Except LyricsError String),
      get_lyrics_reply pi (.error e) = none ∧
        (exceptIsError (player_handle_get_lyrics mailboxOpen replyDelivered pi fetch) = true ↔
          (mailboxOpen = false ∨ replyDelivered = false)) := by
  intro pi e mailboxOpen replyDelivered fetch
  constructor
  · cases pi <;> rfl
  · cases mailboxOpen <;> cases replyDelivered <;>
      simp [player_handle_get_lyrics, exceptIsError]

/-! ## RoomSession and SessionRegistry:
`spoticord_session/src/lib.rs` and `spoticord_session/src/manager.rs` -/

/-- Association-list model of `HashMap` lookup (`get`). -/
def alLookup {α : Type} (k : Nat) : List (Nat × α) → Option α
  | [] => none
  | (k2, v) :: rest => if k2 = k then some v else alLookup k rest

/-- Association-list model of `HashMap::remove`. -/
def alErase {α : Type} (k : Nat) : List (Nat × α) → List (Nat × α)
  | [] => []
  | (k2, v) :: rest => if k2 = k then alErase k rest else (k2, v) :: alErase k rest

/-- Association-list model of `HashMap::insert` (overwrites any
existing entry for the key). -/
def alInsert {α : Type} (k : Nat) (v : α) (l : List (Nat × α)) : List (Nat × α) :=
  (k, v) :: alErase k l

theorem alLookup_erase_eq {α : Type} (k k2 : Nat) (l : List (Nat × α)) :
    alLookup k2 (alErase k l) = if k2 = k then none else alLookup k2 l := by
  induction l with
  | nil => simp [alErase, alLookup]
  | cons head rest ih =>
      obtain ⟨k1, v⟩ := head
      by_cases h1 : k1 = k
      · subst h1
        by_cases h2 : k2 = k1
        · subst h2
          simp [alErase, alLookup, ih]
        · simp [alErase, alLookup, ih, h2, Ne.symm h2]
      · by_cases h2 : k1 = k2
        · subst h2
          simp [alErase, alLookup, ih, h1, Ne.symm h1]
        · simp [alErase, alLookup, ih, h1, h2]

theorem alLookup_insert_eq {α : Type} (k k2 : Nat) (v : α) (l : List (Nat × α)) :
    alLookup k2 (alInsert k v l) = if k2 = k then some v else alLookup k2 l := by
  by_cases h : k2 = k
  · subst h
    simp [alInsert, alLookup]
  · simp [alInsert, alLookup, Ne.symm h, alLookup_erase_eq, h]

/-- The per-session state a `Session` actor owns, as far as the
registry invariants are concerned: `guild_id`, `owner`, the `active`
flag, and whether the actor is still running (`alive` becomes false
once the run loop has ended and `Drop` has executed). -/
structure SessState where
  guild : Nat
  owner : Nat
  active : Bool
  alive : Bool
deriving DecidableEq, Repr

/-- `SessionManager` state (manager.rs lines 11-18): the
guild → session map and the owner → session map, plus the pool of
spawned session actors (keyed by a session identity, with `nextId`
supplying fresh identities). -/
structure RegistryState where
  sessions : List (Nat × Nat)
  owners : List (Nat × Nat)
  sessStates : List (Nat × SessState)
  nextId : Nat
deriving DecidableEq, Repr

/-- Voice-transport side effects performed during session creation. -/
inductive SideEffect where
  | voiceJoin (guild voiceChannel : Nat)
  | voiceLeave (guild : Nat)
deriving DecidableEq, Repr

/-- Outcomes of the external collaborator calls made by
`Session::create`, in source order: text-channel resolution,
credential/database retrieval, `songbird.join`, `Player::create`. -/
structure CreateParams where
  textChannelOk : Bool
  credentialsOk : Bool
  joinOk : Bool
  playerOk : Bool
deriving DecidableEq, Repr

inductive CreateError where
  | textChannel
  | credentials
  | join
  | player
deriving DecidableEq, Repr

/-- `Session::create` (lib.rs lines 72-170): resolves the text channel,
retrieves credentials, joins the voice channel, creates the player
(leaving the call again if that fails), then spawns the session actor
(modelled by inserting a fresh entry into `sessStates`).  It performs
no owner-uniqueness check.  The second component lists the
voice-transport side effects performed. -/
def session_create (st : RegistryState) (guild voiceChannel textChannel owner : Nat)
    (p : CreateParams) : Except CreateError (RegistryState × Nat) × List SideEffect :=
  if p.textChannelOk = false then (.error .textChannel, [])
  else if p.credentialsOk = false then (.error .credentials, [])
  else if p.joinOk = false then (.error .join, [])
  else if p.playerOk = false then
    (.error .player, [.voiceJoin guild voiceChannel, .voiceLeave guild])
  else
    (.ok
      ({ st with
          sessStates :=
            alInsert st.nextId
              { guild := guild, owner := owner, active := true, alive := true }
              st.sessStates
          nextId := st.nextId + 1 },
        st.nextId),
      [.voiceJoin guild voiceChannel])

/-- `SessionManager::create_session` (manager.rs lines 36-64): runs
`Session::create` and, on success, inserts the handle into both the
guild map and the owner map.  There is no check that the owner already
owns a session: a pre-existing owner entry is silently overwritten. -/
def create_session (st : RegistryState) (guild voiceChannel textChannel owner : Nat)
    (p : CreateParams) : Except CreateError (RegistryState × Nat) × List SideEffect :=
  match session_create st guild voiceChannel textChannel owner p with
  | (.error e, effects) => (.error e, effects)
  | (.ok (st2, sid), effects) =>
      (.ok
        ({ st2 with
            sessions := alInsert guild sid st2.sessions
            owners := alInsert owner sid st2.owners },
          sid),
        effects)

inductive SessError where
  | alreadyActive
  | credentials
  | playerCreate
deriving DecidableEq, Repr

/-- `Session::reactivate` (lib.rs lines 322-345): fails immediately with
the already-active error if the session is Active; otherwise retrieves
credentials and builds a fresh player (either may fail), then sets the
new owner and re-enters Active. -/
def session_reactivate (s : SessState) (new_owner : Nat)
    (credentialsOk playerOk : Bool) : Except SessError SessState :=
  if s.active then .error .alreadyActive
  else if credentialsOk = false then .error .credentials
  else if playerOk = false then .error .playerCreate
  else .ok { s with owner := new_owner, active := true }

/-- Registry-level operations: session creation (with the outcomes of
the external calls as parameters), `Session::reactivate`,
`Session::shutdown_player`, `Session::disconnect` followed by the run
loop ending and `Drop` running, and a bare session drop (run loop ends
because every handle was dropped; `Drop` performs the same registry
cleanup). -/
inductive RegOp where
  | createSession (guild voiceChannel textChannel owner : Nat) (p : CreateParams)
  | reactivate (sid new_owner : Nat) (credentialsOk playerOk : Bool)
  | shutdownPlayer (sid : Nat)
  | disconnect (sid : Nat)
  | dropSession (sid : Nat)
deriving DecidableEq, Repr

/-- `Session::disconnect` + `Drop for Session` (lib.rs lines 358-395):
stops the timeout, closes the channels, leaves the call; then `Drop`
removes the guild key and the owner key from the registry maps —
unconditionally, using the session's own `guild_id` and `owner`
fields. -/
def regDisconnectStep (st : RegistryState) (sid : Nat) : RegistryState :=
  match alLookup sid st.sessStates with
  | none => st
  | some s =>
      if s.alive = false then st
      else
        { st with
            sessStates := alInsert sid { s with active := false, alive := false } st.sessStates
            sessions := alErase s.guild st.sessions
            owners := alErase s.owner st.owners }

/-- One registry-level step.  An operation addressed to a session that
does not exist or is no longer alive is a no-op (its command channel is
closed, so the command is never handled). -/
def reg_step (st : RegistryState) (op : RegOp) : RegistryState :=
  match op with
  | .createSession guild voiceChannel textChannel owner p =>
      match (create_session st guild voiceChannel textChannel owner p).1 with
      | .ok st2sid => st2sid.1
      | .error _ => st
  | .reactivate sid new_owner credentialsOk playerOk =>
      match alLookup sid st.sessStates with
      | none => st
      | some s =>
          if s.alive = false then st
          else
            match session_reactivate s new_owner credentialsOk playerOk with
            | .ok s2 => { st with sessStates := alInsert sid s2 st.sessStates }
            | .error _ => st
  | .shutdownPlayer sid =>
      match alLookup sid st.sessStates with
      | none => st
      | some s =>
          if s.alive = false then st
          else
            { st with
                sessStates := alInsert sid { s with active := false } st.sessStates
                owners := alErase s.owner st.owners }
  | .disconnect sid => regDisconnectStep st sid
  | .dropSession sid => regDisconnectStep st sid

/-- The registry starts empty (`SessionManager::new`). -/
def reg_init : RegistryState :=
  { sessions := [], owners := [], sessStates := [], nextId := 0 }

/-- Run a sequence of registry operations from the initial state. -/
def reg_exec (ops : List RegOp) : RegistryState :=
  ops.foldl reg_step reg_init

/-- The claimed invariant: every entry `U → S` of the owner map points
at a session that is still alive, is Active, and has `U` as its current
owner. -/
def OwnersLive (st : RegistryState) : Prop :=
  ∀ u sid, alLookup u st.owners = some sid →
    ∃ s, alLookup sid st.sessStates = some s ∧
      s.owner = u ∧ s.active = true ∧ s.alive = true

/-- Bookkeeping invariant: session identities in use are below
`nextId`, so a newly created session gets a fresh identity. -/
def IdsFresh (st : RegistryState) : Prop :=
  ∀ sid s, alLookup sid st.sessStates = some s → sid < st.nextId

def RegInv (st : RegistryState) : Prop :=
  IdsFresh st ∧ OwnersLive st

theorem reg_step_create_eq (st : RegistryState) (g vc tc u : Nat) (p : CreateParams) :
    reg_step st (.createSession g vc tc u p) =
      if p.textChannelOk = true ∧ p.credentialsOk = true ∧ p.joinOk = true ∧
          p.playerOk = true then
        { sessions := alInsert g st.nextId st.sessions
          owners := alInsert u st.nextId st.owners
          sessStates :=
            alInsert st.nextId { guild := g, owner := u, active := true, alive := true }
              st.sessStates
          nextId := st.nextId + 1 }
      else st := by
  obtain ⟨tok, cok, jok, pok⟩ := p
  cases tok <;> cases cok <;> cases jok <;> cases pok <;>
    simp [reg_step, create_session, session_create]

theorem regInv_createSession (st : RegistryState) (g vc tc u : Nat) (p : CreateParams)
    (h : RegInv st) : RegInv (reg_step st (.createSession g vc tc u p)) := by
  obtain ⟨hf, ho⟩ := h
  rw [reg_step_create_eq]
  by_cases hall : p.textChannelOk = true ∧ p.credentialsOk = true ∧ p.joinOk = true ∧
      p.playerOk = true
  · rw [if_pos hall]
    constructor
    · intro sid s hl
      simp only [alLookup_insert_eq] at hl
      show sid < st.nextId + 1
      by_cases hs : sid = st.nextId
      · omega
      · rw [if_neg hs] at hl
        have := hf sid s hl
        omega
    · intro u2 sid hl
      simp only [alLookup_insert_eq] at hl
      by_cases hu : u2 = u
      · rw [if_pos hu] at hl
        injection hl with hl
        refine ⟨{ guild := g, owner := u, active := true, alive := true }, ?_, ?_, rfl, rfl⟩
        · simp only [alLookup_insert_eq]
          rw [if_pos hl.symm]
        · rw [hu]
      · rw [if_neg hu] at hl
        obtain ⟨s, hs, hso, hsa, hsl⟩ := ho u2 sid hl
        have hlt := hf sid s hs
        refine ⟨s, ?_, hso, hsa, hsl⟩
        simp only [alLookup_insert_eq]
        rw [if_neg (by omega)]
        exact hs
  · rw [if_neg hall]
    exact ⟨hf, ho⟩

theorem regInv_shutdownPlayer (st : RegistryState) (sid : Nat)
    (h : RegInv st) : RegInv (reg_step st (.shutdownPlayer sid)) := by
  obtain ⟨hf, ho⟩ := h
  cases hc : alLookup sid st.sessStates with
  | none => simpa [reg_step, hc] using ⟨hf, ho⟩
  | some s =>
      by_cases hal : s.alive = false
      · simpa [reg_step, hc, hal] using ⟨hf, ho⟩
      · simp only [reg_step, hc, hal]
        rw [if_neg (show ¬(true = false) by simp)]
        constructor
        · intro sid2 s2 hl
          simp only [alLookup_insert_eq] at hl
          show sid2 < st.nextId
          by_cases hs2 : sid2 = sid
          · subst hs2
            exact hf sid2 s hc
          · rw [if_neg hs2] at hl
            exact hf sid2 s2 hl
        · intro u2 sid2 hl
          simp only [alLookup_erase_eq] at hl
          by_cases hu : u2 = s.owner
          · rw [if_pos hu] at hl
            exact absurd hl (by simp)
          · rw [if_neg hu] at hl
            obtain ⟨s2, hs2, h2o, h2a, h2l⟩ := ho u2 sid2 hl
            have hne : sid2 ≠ sid := by
              intro hEq
              subst hEq
              rw [hc] at hs2
              injection hs2 with hs2
              subst hs2
              exact hu h2o.symm
            refine ⟨s2, ?_, h2o, h2a, h2l⟩
            simp only [alLookup_insert_eq]
            rw [if_neg hne]
            exact hs2

theorem session_reactivate_ok_inversion (s : SessState) (new_owner : Nat)
    (credentialsOk playerOk : Bool) (s2 : SessState)
    (h : session_reactivate s new_owner credentialsOk playerOk = .ok s2) :
    s.active = false ∧ s2 = { s with owner := new_owner, active := true } := by
  by_cases ha : s.active = true
  · simp [session_reactivate, ha] at h
  · have ha2 : s.active = false := by simpa using ha
    by_cases hcok : credentialsOk = false
    · simp [session_reactivate, ha2, hcok] at h
    · by_cases hpok : playerOk = false
      · simp [session_reactivate, ha2, hcok, hpok] at h
      · simp [session_reactivate, ha2, hcok, hpok] at h
        exact ⟨ha2, h.symm⟩

theorem regInv_reactivate (st : RegistryState) (sid new_owner : Nat)
    (credentialsOk playerOk : Bool) (h : RegInv st) :
    RegInv (reg_step st (.reactivate sid new_owner credentialsOk playerOk)) := by
  obtain ⟨hf, ho⟩ := h
  cases hc : alLookup sid st.sessStates with
  | none => simpa [reg_step, hc] using ⟨hf, ho⟩
  | some s =>
      by_cases hal : s.alive = false
      · simpa [reg_step, hc, hal] using ⟨hf, ho⟩
      · cases hr : session_reactivate s new_owner credentialsOk playerOk with
        | error e => simpa [reg_step, hc, hal, hr] using ⟨hf, ho⟩
        | ok s2 =>
            obtain ⟨hact, hs2⟩ := session_reactivate_ok_inversion s new_owner
              credentialsOk playerOk s2 hr
            simp only [reg_step, hc, hal, hr]
            rw [if_neg (show ¬(true = false) by simp)]
            constructor
            · intro sid2 s3 hl
              simp only [alLookup_insert_eq] at hl
              show sid2 < st.nextId
              by_cases hs3 : sid2 = sid
              · subst hs3
                exact hf sid2 s hc
              · rw [if_neg hs3] at hl
                exact hf sid2 s3 hl
            · intro u2 sid2 hl
              obtain ⟨s3, hs3, h3o, h3a, h3l⟩ := ho u2 sid2 hl
              have hne : sid2 ≠ sid := by
                intro hEq
                subst hEq
                rw [hc] at hs3
                injection hs3 with hs3
                subst hs3
                rw [hact] at h3a
                exact Bool.false_ne_true h3a
              refine ⟨s3, ?_, h3o, h3a, h3l⟩
              simp only [alLookup_insert_eq]
              rw [if_neg hne]
              exact hs3

theorem regInv_disconnectStep (st : RegistryState) (sid : Nat)
    (h : RegInv st) : RegInv (regDisconnectStep st sid) := by
  obtain ⟨hf, ho⟩ := h
  cases hc : alLookup sid st.sessStates with
  | none => simpa [regDisconnectStep, hc] using ⟨hf, ho⟩
  | some s =>
      by_cases hal : s.alive = false
      · simpa [regDisconnectStep, hc, hal] using ⟨hf, ho⟩
      · simp only [regDisconnectStep, hc, hal]
        rw [if_neg (show ¬(true = false) by simp)]
        constructor
        · intro sid2 s2 hl
          simp only [alLookup_insert_eq] at hl
          show sid2 < st.nextId
          by_cases hs2 : sid2 = sid
          · subst hs2
            exact hf sid2 s hc
          · rw [if_neg hs2] at hl
            exact hf sid2 s2 hl
        · intro u2 sid2 hl
          simp only [alLookup_erase_eq] at hl
          by_cases hu : u2 = s.owner
          · rw [if_pos hu] at hl
            exact absurd hl (by simp)
          · rw [if_neg hu] at hl
            obtain ⟨s2, hs2, h2o, h2a, h2l⟩ := ho u2 sid2 hl
            have hne : sid2 ≠ sid := by
              intro hEq
              subst hEq
              rw [hc] at hs2
              injection hs2 with hs2
              subst hs2
              exact hu h2o.symm
            refine ⟨s2, ?_, h2o, h2a, h2l⟩
            simp only [alLookup_insert_eq]
            rw [if_neg hne]
            exact hs2

theorem reg_step_inv (st : RegistryState) (op : RegOp) (h : RegInv st) :
    RegInv (reg_step st op) := by
  cases op with
  | createSession g vc tc u p => exact regInv_createSession st g vc tc u p h
  | reactivate sid u2 cok pok => exact regInv_reactivate st sid u2 cok pok h
  | shutdownPlayer sid => exact regInv_shutdownPlayer st sid h
  | disconnect sid => exact regInv_disconnectStep st sid h
  | dropSession sid => exact regInv_disconnectStep st sid h

theorem reg_exec_inv (ops : List RegOp) : RegInv (reg_exec ops) := by
  have hinit : RegInv reg_init := by
    constructor
    · intro sid s hl
      simp [alLookup, reg_init] at hl
    · intro u sid hl
      simp [alLookup, reg_init] at hl
  rw [reg_exec]
  induction ops using List.reverseRecOn with
  | nil => simpa using hinit
  | append_singleton l op ih =>
      rw [List.foldl_append, List.foldl_cons, List.foldl_nil]
      exact reg_step_inv _ _ ih

/-- C2: over every sequence of registry operations (session creation,
reactivation, player shutdown, disconnect, session drop), every state
reached satisfies the owner-map invariant: an entry `U → S` in the
owner map exists only while `U` is the live owner of session `S` — the
session is alive, Active, and has owner `U`. -/
theorem registry_owner_entries_live (ops : List RegOp) : OwnersLive (reg_exec ops) :=
  (reg_exec_inv ops).2

/-- All four external collaborator calls succeed. -/
def allOk : CreateParams :=
  { textChannelOk := true, credentialsOk := true, joinOk := true, playerOk := true }

theorem registry_owner_entries_live_witness :
    OwnersLive (reg_exec [.createSession 1 10 11 5 allOk]) :=
  registry_owner_entries_live [.createSession 1 10 11 5 allOk]

/-- C6: `reactivate` on an Active session fails with the already-active
error, and the whole registry state — the session's owner, its active
flag, and both registry maps — is exactly as before the call. -/
theorem reactivate_active_fails (s : SessState) (new_owner : Nat)
    (credentialsOk playerOk : Bool) (hact : s.active = true) :
    session_reactivate s new_owner credentialsOk playerOk = .error .alreadyActive ∧
      ∀ (st : RegistryState) (sid : Nat), alLookup sid st.sessStates = some s →
        reg_step st (.reactivate sid new_owner credentialsOk playerOk) = st := by
  have herr : session_reactivate s new_owner credentialsOk playerOk =
      .error .alreadyActive := by
    simp [session_reactivate, hact]
  refine ⟨herr, ?_⟩
  intro st sid hlook
  simp only [reg_step, hlook, herr]
  by_cases hal : s.alive = false
  · rw [if_pos hal]
  · rw [if_neg hal]

/-- A concrete Active, alive session owned by user 5 in guild 1. -/
def s0 : SessState :=
  { guild := 1, owner := 5, active := true, alive := true }

/-- A concrete registry state in which user 5 is the live owner of
session 0 in guild 1. -/
def st0 : RegistryState :=
  { sessions := [(1, 0)], owners := [(5, 0)], sessStates := [(0, s0)], nextId := 1 }

theorem reactivate_active_fails_witness :
    session_reactivate s0 7 true true = .error .alreadyActive ∧
      reg_step st0 (.reactivate 0 7 true true) = st0 :=
  ⟨(reactivate_active_fails s0 7 true true rfl).1,
    (reactivate_active_fails s0 7 true true rfl).2 st0 0 rfl⟩

/-- C1 (counterexample): in state `st0`, user 5 already owns the live
session 0 in guild 1, yet `create_session` for user 5 in guild 2 does
not fail: it succeeds and performs the voice-join side effect in
guild 2.  The owner-uniqueness check is absent from
`SessionManager::create_session`. -/
theorem create_session_no_owner_check :
    alLookup 5 st0.owners = some 0 ∧
      (alLookup 0 st0.sessStates).map (fun s => s.active) = some true ∧
      exceptIsError (create_session st0 2 20 21 5 allOk).1 = false ∧
      (create_session st0 2 20 21 5 allOk).2 = [.voiceJoin 2 20] := by
  refine ⟨rfl, rfl, rfl, rfl⟩

/-- Decisions the `/join` command can reach before any voice work
(join.rs of the bot crate, lines 122-225). -/
inductive JoinDecision where
  | refuseBusy
  | refuseAlreadyUsing
  | reactivateExisting
  | disconnectThenCreate
  | createNew
deriving DecidableEq, Repr

/-- The guard sequence of the `/join` command (join.rs lines 122-176):
`guildSession` is `some active?` when this guild already has a session,
`ownerHasSession` is whether `get_session(Owner(user))` found one, and
`sameChannel` is whether the existing session sits in the caller's
voice channel.  The command refuses while the guild session is active,
then refuses when the caller already owns a session elsewhere, and only
past both guards proceeds to reactivate or create. -/
def join_command_decision (guildSession : Option Bool) (ownerHasSession : Bool)
    (sameChannel : Bool) : JoinDecision :=
  match guildSession with
  | some true => .refuseBusy
  | some false =>
      if ownerHasSession then .refuseAlreadyUsing
      else if sameChannel then .reactivateExisting
      else .disconnectThenCreate
  | none =>
      if ownerHasSession then .refuseAlreadyUsing
      else .createNew

/-- C1 (amended): `SessionManager::create_session` itself performs no
owner-uniqueness check: called for an owner who already owns a session,
with all collaborator calls succeeding, it joins the voice channel of
the new guild, succeeds, and overwrites the owner's entry in the owner
map with the new session.  The uniqueness check lives in the caller:
the `/join` command refuses — before any voice-join work — whenever the
caller already owns a session. -/
theorem create_session_overwrites_owner (st : RegistryState) (g vc tc u sid : Nat)
    (hown : alLookup u st.owners = some sid) :
    (∃ st2, (create_session st g vc tc u allOk).1 = .ok (st2, st.nextId) ∧
        alLookup u st2.owners = some st.nextId) ∧
      (create_session st g vc tc u allOk).2 = [.voiceJoin g vc] ∧
      ∀ (guildSession : Option Bool) (sameChannel : Bool),
        join_command_decision guildSession true sameChannel = .refuseBusy ∨
          join_command_decision guildSession true sameChannel = .refuseAlreadyUsing := by
  refine ⟨?_, ?_, ?_⟩
  · refine ⟨{ sessions := alInsert g st.nextId st.sessions
              owners := alInsert u st.nextId st.owners
              sessStates := alInsert st.nextId
                { guild := g, owner := u, active := true, alive := true } st.sessStates
              nextId := st.nextId + 1 }, ?_, ?_⟩
    · simp [create_session, session_create, allOk]
    · rw [alLookup_insert_eq, if_pos rfl]
  · simp [create_session, session_create, allOk]
  · intro guildSession sameChannel
    cases guildSession with
    | none => right; rfl
    | some b => cases b with
      | true => left; rfl
      | false => right; rfl

theorem create_session_overwrites_owner_witness :
    (∃ st2, (create_session st0 2 20 21 5 allOk).1 = .ok (st2, st0.nextId) ∧
        alLookup 5 st2.owners = some st0.nextId) ∧
      (create_session st0 2 20 21 5 allOk).2 = [.voiceJoin 2 20] ∧
      ∀ (guildSession : Option Bool) (sameChannel : Bool),
        join_command_decision guildSession true sameChannel = .refuseBusy ∨
          join_command_decision guildSession true sameChannel = .refuseAlreadyUsing :=
  create_session_overwrites_owner st0 2 20 21 5 0 rfl
